import Mathlib

/-! # naza: `pkg/taskpool/pool.go` and `pkg/connection/connection.go`

A shallow embedding of the worker pool (`pool.Go`, `pool.KillIdleWorkers`,
`pool.Status`, `pool.markIdle`) and of the one-shot setters of the connection
wrapper (`New`, `ModWriteBufSize`, `ModReadTimeoutMS`, `ModWriteTimeoutMS`).

Every pool method is taken as one atomic step (the mutex `p.m` is therefore not
part of the state).  The two `int32` counters are integers wrapped to 32 bits
by `wrapInt32` after every `atomic.AddInt32`.  The calls the pool makes on
workers (`NewWorker`, `Start`, `Go`, `Stop`; `worker.go` is a different file)
are recorded, in program order, as a list of `Call`s.

A call of a setter of the connection yields the connection as the call leaves
it together with the value it panicked with, if any; the allocation of a
`bufio` buffer panics beyond `maxAlloc`, the limit of the allocator.
-/

namespace taskpool

/-! ## Machine integers -/

/-- Two's complement wrap of an integer to the range of Go's `int32`. -/
def wrapInt32 (x : Int) : Int :=
  (x + 2147483648) % 4294967296 - 2147483648

/-- The values an `int32` variable can hold. -/
def isInt32 (x : Int) : Prop :=
  -2147483648 ≤ x ∧ x ≤ 2147483647

instance (x : Int) : Decidable (isInt32 x) := by
  unfold isInt32; infer_instance

/-- Go's `atomic.AddInt32(&v, delta)`: the new value of `v`. -/
def AddInt32 (v delta : Int) : Int :=
  wrapInt32 (v + delta)

/-! ## Workers, tasks and the calls made on workers -/

/-- A `*Worker`: the identity of one (non-nil) worker. -/
abbrev Worker := Nat

/-- A `Task`: the submitted function, named by a token. -/
abbrev Task := Nat

/-- The calls `pool.go` makes on workers. -/
inductive Call where
  /-- The call `NewWorker(p)`, which returned the worker `w`. -/
  | NewWorker (w : Worker)
  /-- The call `w.Start()`. -/
  | Start (w : Worker)
  /-- The call `w.Go(task)`. -/
  | Go (w : Worker) (task : Task)
  /-- The call `w.Stop()`. -/
  | Stop (w : Worker)
  deriving DecidableEq, Repr

/-! ## `container/list`

The list is the sequence of the values of its linked elements, front first.
A `*list.Element` held in a local variable is either linked into the list at
some position, or unlinked: `List.remove` sets `e.next = nil`, `e.prev = nil`
and `e.list = nil`, and `Element.Next` returns `nil` when `e.list == nil`. -/

/-- A `*list.Element` as seen by the code that holds the pointer. -/
inductive Element where
  /-- Linked, `e.list == l`: the element is the `pos`-th of the list. -/
  | linked (pos : Nat) (Value : Worker)
  /-- Unlinked, `e.list == nil`: the element has been removed. -/
  | unlinked (Value : Worker)
  deriving DecidableEq, Repr

/-- The field `e.Value`, as a `*Worker`. -/
def Element.Value : Element → Worker
  | .linked _ v => v
  | .unlinked v => v

/-- The method `l.Len()`, an `int`. -/
def Len (l : List Worker) : Int :=
  l.length

/-- The method `l.Front()`: the first element, `nil` (`none`) for the empty list. -/
def Front (l : List Worker) : Option Element :=
  match l with
  | [] => none
  | v :: _ => some (.linked 0 v)

/-- The method `l.Remove(e)`: when `e.list == l` the element is unlinked (and `e.list`,
`e.next`, `e.prev` are cleared); otherwise nothing changes.  Returns the list
and the element as the holder of `e` sees it afterwards. -/
def Remove (l : List Worker) (e : Element) : List Worker × Element :=
  match e with
  | .linked pos v => (l.eraseIdx pos, .unlinked v)
  | .unlinked v => (l, .unlinked v)

/-- The method `e.Next()`: `e.next` when `e.list != nil` and `e.next` is not the root of
the list, else `nil`. -/
def Element.Next (l : List Worker) (e : Element) : Option Element :=
  match e with
  | .linked pos _ =>
    match l.get? (pos + 1) with
    | some v => some (.linked (pos + 1) v)
    | none => none
  | .unlinked _ => none

/-- The method `l.PushBack(v)`. -/
def PushBack (l : List Worker) (v : Worker) : List Worker :=
  l ++ [v]

/-! ## The pool -/

/-- The type `pool struct`: the two counters and the idle list. -/
structure pool where
  idleWorkerNum : Int
  busyWorkerNum : Int
  idleWorkerList : List Worker
  deriving DecidableEq, Repr

/-- Both counters hold `int32` values. -/
def pool.typed (p : pool) : Prop :=
  isInt32 p.idleWorkerNum ∧ isInt32 p.busyWorkerNum

instance (p : pool) : Decidable p.typed := by
  unfold pool.typed; infer_instance

/-- The method `func (p *pool) Go(task Task)`.  `fresh` is the worker that
`NewWorker(p)` returns if it is called.  Result: the pool afterwards and the
calls made on workers, in program order. -/
def pool.Go (p : pool) (task : Task) (fresh : Worker) : pool × List Call :=
  -- var w *Worker; e := p.idleWorkerList.Front()
  let e := Front p.idleWorkerList
  -- if e != nil { w = e.Value; Remove(e); idleWorkerNum += -1; busyWorkerNum += 1 }
  let r1 : pool × Option Worker :=
    match e with
    | some e =>
      ({ idleWorkerNum := AddInt32 p.idleWorkerNum (-1),
         busyWorkerNum := AddInt32 p.busyWorkerNum 1,
         idleWorkerList := (Remove p.idleWorkerList e).1 }, some e.Value)
    | none => (p, none)
  -- if w == nil { w = NewWorker(p); w.Start(); busyWorkerNum += 1 }
  let r2 : pool × Worker × List Call :=
    match r1.2 with
    | none =>
      ({ r1.1 with busyWorkerNum := AddInt32 r1.1.busyWorkerNum 1 }, fresh,
       [Call.NewWorker fresh, Call.Start fresh])
    | some w => (r1.1, w, [])
  -- w.Go(task)
  (r2.1, r2.2.2 ++ [Call.Go r2.2.1 task])

/-- The `for e := Front(); e != nil; e = e.Next()` loop of `KillIdleWorkers`.
`e` is the loop variable, `calls` the calls made so far; `none` when the fuel
runs out before `e == nil`. -/
def pool.KillIdleWorkers.loop :
    Nat → List Worker → Option Element → List Call → Option (List Worker × List Call)
  | _, l, none, calls => some (l, calls)
  | 0, _, some _, _ => none
  | fuel + 1, l, some e, calls =>
    let w := e.Value
    let r := Remove l e
    pool.KillIdleWorkers.loop fuel r.1 (r.2.Next r.1) (calls ++ [Call.Stop w])

/-- The method `func (p *pool) KillIdleWorkers()`: `none` if it does not
return.  The loop is given one unit of fuel per element present at entry,
plus one. -/
def pool.KillIdleWorkers (p : pool) : Option (pool × List Call) :=
  let n := Len p.idleWorkerList
  match pool.KillIdleWorkers.loop (p.idleWorkerList.length + 1) p.idleWorkerList
      (Front p.idleWorkerList) [] with
  | some (l, calls) =>
    some ({ p with idleWorkerNum := AddInt32 p.idleWorkerNum (wrapInt32 (-n)),
                   idleWorkerList := l }, calls)
  | none => none

/-- The method `func (p *pool) Status() (idleWorkerNum int, busyWorkerNum int)`. -/
def pool.Status (p : pool) : Int × Int :=
  (p.idleWorkerNum, p.busyWorkerNum)

/-- The method `func (p *pool) markIdle(w *Worker)`. -/
def pool.markIdle (p : pool) (w : Worker) : pool :=
  { idleWorkerNum := AddInt32 p.idleWorkerNum 1,
    busyWorkerNum := AddInt32 p.busyWorkerNum (-1),
    idleWorkerList := PushBack p.idleWorkerList w }

/-! ## Runs of the pool from a given state -/

/-- One atomic step of a client or of a worker of the pool. -/
inductive Op where
  /-- A client calls `p.Go(task)`. -/
  | Go (task : Task)
  /-- The worker `w` calls `p.markIdle(w)`. -/
  | markIdle (w : Worker)
  /-- A client calls `p.KillIdleWorkers()`. -/
  | KillIdleWorkers
  deriving DecidableEq, Repr

/-- The worker a call hands a task to, if it is a `w.Go(task)`. -/
def Call.handed : Call → Option Worker
  | .Go w _ => some w
  | _ => none

/-- The worker a call creates, if it is a `NewWorker(p)`. -/
def Call.created : Call → Option Worker
  | .NewWorker w => some w
  | _ => none

/-- The pool together with its environment: `created` counts the workers
`NewWorker` has returned so far (they are `0, 1, …, created - 1`), `busy` lists
the workers that were handed a task by `Go` and have not reported idle since,
`calls` is the history of the calls made on workers. -/
structure Sys where
  p : pool
  created : Nat
  busy : List Worker
  calls : List Call
  deriving DecidableEq, Repr

/-- The empty pool: both counters 0, empty idle list, no worker yet. -/
def Sys.empty : Sys :=
  { p := { idleWorkerNum := 0, busyWorkerNum := 0, idleWorkerList := [] },
    created := 0, busy := [], calls := [] }

/-- One step.  `markIdle w` is only taken by a worker that is busy;
`none` when the step cannot be taken or does not return. -/
def Sys.step (s : Sys) : Op → Option Sys
  | .Go task =>
    let r := s.p.Go task s.created
    some { p := r.1,
           created := s.created + (r.2.filterMap Call.created).length,
           busy := s.busy ++ r.2.filterMap Call.handed,
           calls := s.calls ++ r.2 }
  | .markIdle w =>
    if w ∈ s.busy then
      some { s with p := s.p.markIdle w, busy := s.busy.erase w }
    else none
  | .KillIdleWorkers =>
    match s.p.KillIdleWorkers with
    | some r => some { s with p := r.1, calls := s.calls ++ r.2 }
    | none => none

/-- A finite sequence of steps, left to right. -/
def Sys.run (s : Sys) : List Op → Option Sys
  | [] => some s
  | op :: ops =>
    match s.step op with
    | some s' => s'.run ops
    | none => none

/-- The calls `n` successive `Go`s make when each finds the idle list empty and
the next fresh worker is `start`: the `i`-th task goes to worker `start + i`,
created for it. -/
def newWorkerCalls (start : Nat) : List Task → List Call
  | [] => []
  | task :: tasks =>
    [Call.NewWorker start, Call.Start start, Call.Go start task] ++
      newWorkerCalls (start + 1) tasks

end taskpool

/-! # `pkg/connection/connection.go` -/

namespace connection

set_option linter.dupNamespace false

/-- The values a call can panic with: `connectionErr`, declared as
`var connectionErr = errors.New("connection: fxxk")`, and the runtime error
`makeslice: len out of range` raised inside `bufio` when a buffer cannot be
allocated. -/
inductive Error where
  | connectionErr
  | makeslice
  deriving DecidableEq, Repr

/-- The type `Config struct`; `int` fields. -/
structure Config where
  ReadBufSize : Int
  WriteBufSize : Int
  ReadTimeoutMS : Int
  WriteTimeoutMS : Int
  deriving DecidableEq, Repr

/-- A `net.Conn`, named by a handle. -/
abbrev Conn := Nat

/-- What `c.r` holds: the connection itself or a `*bufio.Reader` on it with a
buffer of `size` bytes. -/
inductive Reader where
  | conn (c : Conn)
  | bufio (c : Conn) (size : Int)
  deriving DecidableEq, Repr

/-- What `c.w` holds: the connection itself or a `*bufio.Writer` on it with a
buffer of `size` bytes. -/
inductive Writer where
  | conn (c : Conn)
  | bufio (c : Conn) (size : Int)
  deriving DecidableEq, Repr

/-- Go's `make([]byte, size)`: the length of the new slice, or the panic
`makeslice: len out of range` when `size` is negative or more than `maxAlloc`,
the most the allocator of the platform accepts (a parameter of the model). -/
def makeBytes (maxAlloc : Int) (size : Int) : Except Error Int :=
  if size < 0 ∨ maxAlloc < size then .error Error.makeslice else .ok size

/-- Go's `bufio.NewReaderSize(conn, size)`: a buffer of at least 16 bytes is
allocated. -/
def NewReaderSize (maxAlloc : Int) (c : Conn) (size : Int) : Except Error Reader :=
  match makeBytes maxAlloc (if size < 16 then 16 else size) with
  | .ok len => .ok (Reader.bufio c len)
  | .error e => .error e

/-- Go's `bufio.NewWriterSize(conn, size)`: a buffer of `size` bytes, of 4096
bytes when `size <= 0`, is allocated. -/
def NewWriterSize (maxAlloc : Int) (c : Conn) (size : Int) : Except Error Writer :=
  match makeBytes maxAlloc (if size ≤ 0 then 4096 else size) with
  | .ok len => .ok (Writer.bufio c len)
  | .error e => .error e

/-- The type `connection struct`. -/
structure connection where
  Conn : Conn
  r : Reader
  w : Writer
  config : Config
  deriving DecidableEq, Repr

/-- The function `func New(conn net.Conn, config Config) Connection`: the new
connection, or the panic raised while a buffer is allocated. -/
def New (maxAlloc : Int) (conn : Conn) (config : Config) : Except Error connection :=
  -- if config.ReadBufSize > 0 { c.r = bufio.NewReaderSize(...) } else { c.r = conn }
  match (if config.ReadBufSize > 0 then NewReaderSize maxAlloc conn config.ReadBufSize
         else .ok (Reader.conn conn)) with
  | .error e => .error e
  | .ok r =>
    -- if config.WriteBufSize > 0 { c.w = bufio.NewWriterSize(...) } else { c.w = conn }
    match (if config.WriteBufSize > 0 then NewWriterSize maxAlloc conn config.WriteBufSize
           else .ok (Writer.conn conn)) with
    | .error e => .error e
    | .ok w => .ok { Conn := conn, r := r, w := w, config := config }

/-- The method `func (c *connection) ModWriteBufSize(n int)`.  Result: `*c` when
the call ends, and the value it panicked with (`none` when it returned).  The
size is stored before the writer is allocated, so a panic of the allocation
leaves the new size stored and the old writer in place. -/
def connection.ModWriteBufSize (maxAlloc : Int) (c : connection) (n : Int) :
    connection × Option Error :=
  if c.config.WriteBufSize > 0 then
    (c, some Error.connectionErr)
  else
    -- c.config.WriteBufSize = n
    let c1 : connection := { c with config := { c.config with WriteBufSize := n } }
    -- c.w = bufio.NewWriterSize(c.Conn, n)
    match NewWriterSize maxAlloc c1.Conn n with
    | .ok w => ({ c1 with w := w }, none)
    | .error e => (c1, some e)

/-- The method `func (c *connection) ModReadTimeoutMS(n int)`.  Result: `*c`
when the call ends, and the value it panicked with (`none` when it returned). -/
def connection.ModReadTimeoutMS (c : connection) (n : Int) : connection × Option Error :=
  if c.config.ReadTimeoutMS > 0 then
    (c, some Error.connectionErr)
  else
    ({ c with config := { c.config with ReadTimeoutMS := n } }, none)

/-- The method `func (c *connection) ModWriteTimeoutMS(n int)`.  Result: `*c`
when the call ends, and the value it panicked with (`none` when it returned). -/
def connection.ModWriteTimeoutMS (c : connection) (n : Int) : connection × Option Error :=
  if c.config.WriteTimeoutMS > 0 then
    (c, some Error.connectionErr)
  else
    ({ c with config := { c.config with WriteTimeoutMS := n } }, none)

end connection

/-! # Properties of the pool -/

namespace taskpool

/-! ## Arithmetic of the wrapped counters -/

theorem wrapInt32_of_isInt32 (x : Int) (h : isInt32 x) : wrapInt32 x = x := by
  unfold isInt32 at h
  unfold wrapInt32
  omega

theorem isInt32_wrapInt32 (x : Int) : isInt32 (wrapInt32 x) := by
  unfold isInt32 wrapInt32
  omega

theorem wrapInt32_add_left (a b : Int) : wrapInt32 (wrapInt32 a + b) = wrapInt32 (a + b) := by
  unfold wrapInt32
  omega

theorem wrapInt32_add_right (a b : Int) : wrapInt32 (a + wrapInt32 b) = wrapInt32 (a + b) := by
  unfold wrapInt32
  omega

/-! ## What each method does, in closed form -/

theorem Go_cons (p : pool) (w : Worker) (rest : List Worker) (task : Task) (fresh : Worker)
    (h : p.idleWorkerList = w :: rest) :
    p.Go task fresh =
      ({ idleWorkerNum := wrapInt32 (p.idleWorkerNum - 1),
         busyWorkerNum := wrapInt32 (p.busyWorkerNum + 1),
         idleWorkerList := rest }, [Call.Go w task]) := by
  simp [pool.Go, h, Front, Remove, Element.Value, AddInt32, Int.sub_eq_add_neg]

theorem Go_nil (p : pool) (task : Task) (fresh : Worker) (h : p.idleWorkerList = []) :
    p.Go task fresh =
      ({ idleWorkerNum := p.idleWorkerNum,
         busyWorkerNum := wrapInt32 (p.busyWorkerNum + 1),
         idleWorkerList := [] },
       [Call.NewWorker fresh, Call.Start fresh, Call.Go fresh task]) := by
  cases p with
  | mk i b l =>
    simp only at h
    subst h
    simp [pool.Go, Front, AddInt32]

/-- The loop of `KillIdleWorkers` ends after at most one round: the element it
has just removed has no `Next`. -/
theorem KillIdleWorkers_loop_eq (fuel : Nat) (l : List Worker) :
    pool.KillIdleWorkers.loop (fuel + 1) l (Front l) [] =
      some (l.tail, l.head?.toList.map Call.Stop) := by
  cases l with
  | nil => simp [pool.KillIdleWorkers.loop, Front]
  | cons w rest =>
    simp [pool.KillIdleWorkers.loop, Front, Remove, Element.Next, Element.Value]

theorem KillIdleWorkers_eq (p : pool) :
    p.KillIdleWorkers =
      some ({ idleWorkerNum := wrapInt32 (p.idleWorkerNum - p.idleWorkerList.length),
              busyWorkerNum := p.busyWorkerNum,
              idleWorkerList := p.idleWorkerList.tail },
            p.idleWorkerList.head?.toList.map Call.Stop) := by
  unfold pool.KillIdleWorkers
  rw [KillIdleWorkers_loop_eq]
  simp [AddInt32, Len, wrapInt32_add_right, Int.sub_eq_add_neg]

/-! ## The idle count and the length of the idle list -/

theorem Go_keeps_idle_count (p : pool) (task : Task) (fresh : Worker)
    (ht : isInt32 p.idleWorkerNum) (h : p.idleWorkerNum = Len p.idleWorkerList) :
    (p.Go task fresh).1.idleWorkerNum = Len (p.Go task fresh).1.idleWorkerList := by
  cases hl : p.idleWorkerList with
  | nil => rw [Go_nil p task fresh hl]; simp [h, hl]
  | cons w rest =>
    rw [Go_cons p w rest task fresh hl]
    simp only [Len, hl, List.length_cons, Nat.cast_add, Nat.cast_one] at h ⊢
    unfold isInt32 at ht
    unfold wrapInt32
    omega

theorem markIdle_keeps_idle_count (p : pool) (w : Worker)
    (hlt : p.idleWorkerNum < 2147483647) (h : p.idleWorkerNum = Len p.idleWorkerList) :
    (p.markIdle w).idleWorkerNum = Len (p.markIdle w).idleWorkerList := by
  simp only [pool.markIdle, AddInt32, PushBack, Len, List.length_append, List.length_singleton,
    Nat.cast_add, Nat.cast_one] at h ⊢
  rw [← h]
  apply wrapInt32_of_isInt32
  have : (0 : Int) ≤ p.idleWorkerList.length := Int.ofNat_nonneg _
  unfold isInt32
  omega

/-- Claim C1, at the failing input: with two idle workers and
`idleWorkerNum == idleWorkerList.Len() == 2`, `KillIdleWorkers` returns with
`idleWorkerNum == 0` while the idle list still holds one worker, so the two
differ afterwards. -/
theorem KillIdleWorkers_breaks_idle_count :
    (pool.mk 2 0 [1, 2]).idleWorkerNum = Len (pool.mk 2 0 [1, 2]).idleWorkerList ∧
    (pool.mk 2 0 [1, 2]).KillIdleWorkers = some (pool.mk 0 0 [2], [Call.Stop 1]) ∧
    (pool.mk 0 0 [2]).idleWorkerNum ≠ Len (pool.mk 0 0 [2]).idleWorkerList := by
  decide

/-- Claim C2, at the failing input: worker 2 is in the idle list when
`KillIdleWorkers` is called; the `Go` that follows hands its task to worker 2. -/
theorem Go_after_KillIdleWorkers_reuses_idle_worker :
    2 ∈ (pool.mk 2 0 [1, 2]).idleWorkerList ∧
    (pool.mk 2 0 [1, 2]).KillIdleWorkers = some (pool.mk 0 0 [2], [Call.Stop 1]) ∧
    (pool.mk 0 0 [2]).Go 9 3 = (pool.mk (-1) 1 [], [Call.Go 2 9]) := by
  decide

/-- Claim C3, at the failing input: with the idle workers 1, 2, 3,
`KillIdleWorkers` stops worker 1 only and leaves 2 and 3 in the idle list. -/
theorem KillIdleWorkers_stops_front_only :
    (pool.mk 3 0 [1, 2, 3]).KillIdleWorkers = some (pool.mk 0 0 [2, 3], [Call.Stop 1]) := by
  decide

/-- Claim C4: when `idleWorkerNum == idleWorkerList.Len() == k` and
`busyWorkerNum == b`, `KillIdleWorkers` returns and `Status` then gives
`(0, b)`. -/
theorem Status_after_KillIdleWorkers (p : pool) (k b : Int)
    (hk : p.idleWorkerNum = k) (hl : Len p.idleWorkerList = k) (hb : p.busyWorkerNum = b) :
    ∃ p' calls, p.KillIdleWorkers = some (p', calls) ∧ p'.Status = (0, b) := by
  refine ⟨_, _, KillIdleWorkers_eq p, ?_⟩
  have h0 : p.idleWorkerNum - (p.idleWorkerList.length : Int) = 0 := by
    unfold Len at hl
    omega
  simp only [pool.Status, h0, hb]
  rfl

theorem Status_after_KillIdleWorkers_witness :
    (pool.mk 3 5 [1, 2, 3]).idleWorkerNum = 3 ∧ Len (pool.mk 3 5 [1, 2, 3]).idleWorkerList = 3 ∧
    (pool.mk 3 5 [1, 2, 3]).busyWorkerNum = 5 ∧
    ∃ p' calls, (pool.mk 3 5 [1, 2, 3]).KillIdleWorkers = some (p', calls) ∧
      p'.Status = (0, 5) :=
  ⟨rfl, rfl, rfl, Status_after_KillIdleWorkers (pool.mk 3 5 [1, 2, 3]) 3 5 rfl rfl rfl⟩

/-- Claim C5, at the failing input: from the empty pool, two `Go`s create the
workers 0 and 1, both report idle, `KillIdleWorkers` runs, and one more `Go`
leaves `Status() == (-1, 1)`. -/
theorem Status_idle_negative_reachable :
    (Sys.empty.run [Op.Go 1, Op.Go 2, Op.markIdle 0, Op.markIdle 1,
        Op.KillIdleWorkers, Op.Go 3]).map (fun s => s.p.Status) = some (-1, 1) := by
  decide

/-- Claim C6 as stated fails where a counter is at the end of the `int32`
range: with `busyWorkerNum == 2147483647`, `Go` on a non-empty idle list leaves
`busyWorkerNum == -2147483648`, not one more. -/
theorem Go_busy_wraps :
    (pool.mk 1 2147483647 [7]).typed ∧
    (pool.mk 1 2147483647 [7]).idleWorkerList = [7] ∧
    ((pool.mk 1 2147483647 [7]).Go 1 8).1.busyWorkerNum = -2147483648 ∧
    ((pool.mk 1 2147483647 [7]).Go 1 8).1.busyWorkerNum ≠
      (pool.mk 1 2147483647 [7]).busyWorkerNum + 1 := by
  decide

/-- Claim C6, amended: when the idle list is `w :: rest`, `idleWorkerNum` is
not the least and `busyWorkerNum` not the greatest `int32`, `Go(task)` leaves
`rest` as the idle list, `idleWorkerNum - 1` and `busyWorkerNum + 1` as the
counters, and its only call is `w.Go(task)`: no worker is created. -/
theorem Go_takes_front (p : pool) (w : Worker) (rest : List Worker) (task : Task)
    (fresh : Worker) (h : p.idleWorkerList = w :: rest) (ht : p.typed)
    (hi : -2147483648 < p.idleWorkerNum) (hb : p.busyWorkerNum < 2147483647) :
    p.Go task fresh =
      ({ idleWorkerNum := p.idleWorkerNum - 1,
         busyWorkerNum := p.busyWorkerNum + 1,
         idleWorkerList := rest }, [Call.Go w task]) := by
  rw [Go_cons p w rest task fresh h]
  obtain ⟨h1, h2⟩ := ht
  unfold isInt32 at h1 h2
  rw [wrapInt32_of_isInt32 (p.idleWorkerNum - 1) (by unfold isInt32; omega),
    wrapInt32_of_isInt32 (p.busyWorkerNum + 1) (by unfold isInt32; omega)]

theorem Go_takes_front_witness :
    (pool.mk 2 0 [7, 8]).Go 1 9 = (pool.mk 1 1 [8], [Call.Go 7 1]) :=
  Go_takes_front (pool.mk 2 0 [7, 8]) 7 [8] 1 9 rfl (by decide) (by decide) (by decide)

/-! ## Runs of `Go` on a pool with an empty idle list -/

theorem run_Go_on_empty_list (tasks : List Task) :
    ∀ s : Sys, s.p.idleWorkerList = [] → isInt32 s.p.busyWorkerNum →
      s.run (tasks.map Op.Go) = some
        { p := { idleWorkerNum := s.p.idleWorkerNum,
                 busyWorkerNum := wrapInt32 (s.p.busyWorkerNum + tasks.length),
                 idleWorkerList := [] },
          created := s.created + tasks.length,
          busy := s.busy ++ List.range' s.created tasks.length,
          calls := s.calls ++ newWorkerCalls s.created tasks } := by
  induction tasks with
  | nil =>
    intro s hl hb
    obtain ⟨⟨i, b, l⟩, c, bs, cs⟩ := s
    simp only at hl hb
    subst hl
    simp [Sys.run, newWorkerCalls, wrapInt32_of_isInt32 b hb]
  | cons task tasks ih =>
    intro s hl hb
    obtain ⟨⟨i, b, l⟩, c, bs, cs⟩ := s
    simp only at hl hb
    subst hl
    simp only [List.map_cons, Sys.run, Sys.step, Go_nil (pool.mk i b []) task c rfl]
    rw [ih _ rfl (isInt32_wrapInt32 _)]
    simp only [List.filterMap_cons, Call.created, Call.handed, List.filterMap_nil,
      List.length_cons, List.length_nil, newWorkerCalls, List.range'_succ, wrapInt32_add_left]
    simp only [Nat.cast_add, Nat.cast_one, List.append_assoc, List.singleton_append,
      List.cons_append, List.nil_append, Option.some.injEq, Sys.mk.injEq, pool.mk.injEq,
      true_and, and_true]
    refine ⟨?_, ?_⟩
    · congr 1; omega
    · omega

theorem newWorkerCalls_created (tasks : List Task) : ∀ start : Nat,
    (newWorkerCalls start tasks).filterMap Call.created = List.range' start tasks.length := by
  induction tasks with
  | nil => intro start; simp [newWorkerCalls]
  | cons t ts ih =>
    intro start
    simp [newWorkerCalls, Call.created, ih, List.range'_succ]

theorem newWorkerCalls_handed (tasks : List Task) : ∀ start : Nat,
    (newWorkerCalls start tasks).filterMap Call.handed = List.range' start tasks.length := by
  induction tasks with
  | nil => intro start; simp [newWorkerCalls]
  | cons t ts ih =>
    intro start
    simp [newWorkerCalls, Call.handed, ih, List.range'_succ]


/-- Claim C7 as stated fails for `N = 2147483648`: after that many `Go`s on
the empty pool `busyWorkerNum` has wrapped and `Status` returns
`(0, -2147483648)`, not `(0, N)`. -/
theorem Go_n_times_busy_wraps :
    (Sys.empty.run ((List.replicate 2147483648 (0 : Task)).map Op.Go)).map
        (fun s => s.p.Status) = some (0, -2147483648) ∧
    (Sys.empty.run ((List.replicate 2147483648 (0 : Task)).map Op.Go)).map
        (fun s => s.p.Status) ≠ some (0, ((2147483648 : Nat) : Int)) := by
  have h := run_Go_on_empty_list (List.replicate 2147483648 (0 : Task)) Sys.empty rfl
    (by decide)
  rw [List.length_replicate] at h
  rw [h]
  have hw : wrapInt32 (Sys.empty.p.busyWorkerNum + ((2147483648 : Nat) : Int)) = -2147483648 := by
    decide
  simp only [Option.map_some', pool.Status, hw]
  constructor
  · rfl
  · decide

/-- Claim C7, amended to `N <= 2147483647`: `N` successive `Go`s on the empty
pool return; the `i`-th creates worker `i` and hands it the `i`-th task, so `N`
distinct workers are created and each task goes to the one created for it;
afterwards `Status() == (0, N)` and the idle list is empty. -/
theorem Go_n_times_from_empty (tasks : List Task) (hN : tasks.length ≤ 2147483647) :
    ∃ s, Sys.empty.run (tasks.map Op.Go) = some s ∧
      s.calls = newWorkerCalls 0 tasks ∧
      s.calls.filterMap Call.created = List.range tasks.length ∧
      s.calls.filterMap Call.handed = List.range tasks.length ∧
      (s.calls.filterMap Call.handed).Nodup ∧
      s.created = tasks.length ∧
      s.p.Status = (0, (tasks.length : Int)) ∧
      s.p.idleWorkerList = [] := by
  refine ⟨_, run_Go_on_empty_list tasks Sys.empty rfl (by decide), ?_⟩
  have hw : wrapInt32 (Sys.empty.p.busyWorkerNum + (tasks.length : Int)) = tasks.length := by
    simp only [Sys.empty, wrapInt32]
    omega
  simp only [Sys.empty, List.nil_append, Nat.zero_add, newWorkerCalls_created,
    newWorkerCalls_handed, List.range_eq_range', pool.Status, true_and, and_true]
  refine ⟨List.nodup_range' 0 tasks.length, ?_⟩
  simpa [Sys.empty] using hw

theorem Go_n_times_from_empty_witness :
    [10, 11, 12].length ≤ 2147483647 ∧
    ∃ s, Sys.empty.run ([10, 11, 12].map Op.Go) = some s ∧
      s.calls = newWorkerCalls 0 [10, 11, 12] ∧
      s.calls.filterMap Call.created = List.range [10, 11, 12].length ∧
      s.calls.filterMap Call.handed = List.range [10, 11, 12].length ∧
      (s.calls.filterMap Call.handed).Nodup ∧
      s.created = [10, 11, 12].length ∧
      s.p.Status = (0, ([10, 11, 12].length : Int)) ∧
      s.p.idleWorkerList = [] :=
  ⟨by decide, Go_n_times_from_empty [10, 11, 12] (by decide)⟩

/-- Claim C8 as stated fails where a counter is at the end of the `int32`
range: with `idleWorkerNum == 2147483647`, `markIdle` leaves
`idleWorkerNum == -2147483648`, and the sum of the two counters changes. -/
theorem markIdle_idle_wraps :
    (pool.mk 2147483647 1 []).typed ∧
    ((pool.mk 2147483647 1 []).markIdle 5).idleWorkerNum = -2147483648 ∧
    ((pool.mk 2147483647 1 []).markIdle 5).idleWorkerNum ≠
      (pool.mk 2147483647 1 []).idleWorkerNum + 1 ∧
    ((pool.mk 2147483647 1 []).markIdle 5).idleWorkerNum +
        ((pool.mk 2147483647 1 []).markIdle 5).busyWorkerNum ≠
      (pool.mk 2147483647 1 []).idleWorkerNum + (pool.mk 2147483647 1 []).busyWorkerNum := by
  decide

/-- Claim C8, amended: when `idleWorkerNum` is not the greatest and
`busyWorkerNum` not the least `int32`, `markIdle(w)` appends `w` at the back of
the idle list and leaves the other elements and their order as they were,
adds 1 to `idleWorkerNum` and takes 1 from `busyWorkerNum`; the sum of the two
is unchanged. -/
theorem markIdle_appends (p : pool) (w : Worker) (ht : p.typed)
    (hi : p.idleWorkerNum < 2147483647) (hb : -2147483648 < p.busyWorkerNum) :
    p.markIdle w =
      { idleWorkerNum := p.idleWorkerNum + 1,
        busyWorkerNum := p.busyWorkerNum - 1,
        idleWorkerList := p.idleWorkerList ++ [w] } ∧
    (p.markIdle w).idleWorkerNum + (p.markIdle w).busyWorkerNum =
      p.idleWorkerNum + p.busyWorkerNum := by
  obtain ⟨h1, h2⟩ := ht
  unfold isInt32 at h1 h2
  have e1 : wrapInt32 (p.idleWorkerNum + 1) = p.idleWorkerNum + 1 :=
    wrapInt32_of_isInt32 _ (by unfold isInt32; omega)
  have e2 : wrapInt32 (p.busyWorkerNum + -1) = p.busyWorkerNum - 1 := by
    rw [wrapInt32_of_isInt32 _ (by unfold isInt32; omega)]; rfl
  simp only [pool.markIdle, AddInt32, PushBack, e1, e2, true_and]
  omega

theorem markIdle_appends_witness :
    (pool.mk 1 2 [7]).markIdle 8 = pool.mk 2 1 [7, 8] ∧
    ((pool.mk 1 2 [7]).markIdle 8).idleWorkerNum + ((pool.mk 1 2 [7]).markIdle 8).busyWorkerNum =
      (pool.mk 1 2 [7]).idleWorkerNum + (pool.mk 1 2 [7]).busyWorkerNum :=
  markIdle_appends (pool.mk 1 2 [7]) 8 (by decide) (by decide) (by decide)

/-- Claim C9 as stated fails: with worker 7 alone in the idle list, `Go(1)`
hands task 1 to worker 7 and empties the idle list, and the `Go(2)` that
follows creates worker 8 and hands task 2 to it. -/
theorem Go_twice_creates_worker :
    (Sys.mk (pool.mk 1 0 [7]) 8 [] []).run [Op.Go 1, Op.Go 2] =
      some (Sys.mk (pool.mk 0 2 []) 9 [7, 8]
        [Call.Go 7 1, Call.NewWorker 8, Call.Start 8, Call.Go 8 2]) := by
  decide

/-- Claim C9, amended: when the idle list holds exactly the worker `w`, the
steps `Go(t1)`, `markIdle(w)`, `Go(t2)` can be taken in this order, hand `t1`
and then `t2` to `w`, make no other call, and create no worker; the steps
`Go(t1)`, `Go(t2)` with no step in between hand `t1` to `w`, and the second
`Go` creates a worker, starts it and hands `t2` to it. -/
theorem Go_markIdle_Go_same_worker (s : Sys) (w : Worker) (t1 t2 : Task)
    (h : s.p.idleWorkerList = [w]) :
    (∃ s', s.run [Op.Go t1, Op.markIdle w, Op.Go t2] = some s' ∧
      s'.calls = s.calls ++ [Call.Go w t1, Call.Go w t2] ∧
      s'.created = s.created) ∧
    (∃ s', s.run [Op.Go t1, Op.Go t2] = some s' ∧
      s'.calls = s.calls ++ [Call.Go w t1, Call.NewWorker s.created, Call.Start s.created,
        Call.Go s.created t2] ∧
      s'.created = s.created + 1) := by
  obtain ⟨⟨i, b, l⟩, c, bs, cs⟩ := s
  simp only at h
  subst h
  constructor
  · simp [Sys.run, Sys.step, Go_cons (pool.mk i b [w]) w [] t1 c rfl, Call.created,
      Call.handed, pool.markIdle, PushBack, pool.Go, Front, Remove, Element.Value]
  · simp only [Sys.run, Sys.step, Go_cons (pool.mk i b [w]) w [] t1 c rfl, Call.created,
      Call.handed, List.filterMap_cons, List.filterMap_nil, List.length_nil, Nat.add_zero]
    rw [Go_nil _ t2 c rfl]
    simp [Call.created, Call.handed]

theorem Go_markIdle_Go_same_worker_witness :
    (Sys.mk (pool.mk 1 0 [7]) 8 [] []).p.idleWorkerList = [7] ∧
    (∃ s', (Sys.mk (pool.mk 1 0 [7]) 8 [] []).run [Op.Go 1, Op.markIdle 7, Op.Go 2] = some s' ∧
      s'.calls = (Sys.mk (pool.mk 1 0 [7]) 8 [] []).calls ++ [Call.Go 7 1, Call.Go 7 2] ∧
      s'.created = (Sys.mk (pool.mk 1 0 [7]) 8 [] []).created) ∧
    (∃ s', (Sys.mk (pool.mk 1 0 [7]) 8 [] []).run [Op.Go 1, Op.Go 2] = some s' ∧
      s'.calls = (Sys.mk (pool.mk 1 0 [7]) 8 [] []).calls ++
        [Call.Go 7 1, Call.NewWorker (Sys.mk (pool.mk 1 0 [7]) 8 [] []).created,
          Call.Start (Sys.mk (pool.mk 1 0 [7]) 8 [] []).created,
          Call.Go (Sys.mk (pool.mk 1 0 [7]) 8 [] []).created 2] ∧
      s'.created = (Sys.mk (pool.mk 1 0 [7]) 8 [] []).created + 1) :=
  ⟨rfl, Go_markIdle_Go_same_worker (Sys.mk (pool.mk 1 0 [7]) 8 [] []) 7 1 2 rfl⟩

end taskpool

/-! # Properties of the connection setters -/

namespace connection

/-- A connection that `New` returns holds the `Config` it was built from. -/
theorem New_config (maxAlloc : Int) (conn : Conn) (config : Config) (c0 : connection)
    (h : New maxAlloc conn config = .ok c0) : c0.config = config := by
  unfold New at h
  split at h
  · exact absurd h (by simp)
  · split at h
    · exact absurd h (by simp)
    · simp only [Except.ok.injEq] at h
      rw [← h]

/-- With the field stored as `n`, whatever `ModWriteBufSize` panics with or
not, the connection it leaves has `WriteBufSize` equal to `n` once the guard
has been passed. -/
theorem ModWriteBufSize_stores (maxAlloc : Int) (c : connection) (n : Int)
    (h : ¬ c.config.WriteBufSize > 0) :
    (c.ModWriteBufSize maxAlloc n).1.config.WriteBufSize = n := by
  unfold connection.ModWriteBufSize
  rw [if_neg h]
  simp only
  split <;> rfl

/-- Within the limit of the allocator, `ModWriteBufSize` with a positive size
returns once the guard has been passed. -/
theorem ModWriteBufSize_returns (maxAlloc : Int) (c : connection) (n : Int)
    (h : ¬ c.config.WriteBufSize > 0) (hn : 0 < n) (hmax : n ≤ maxAlloc) :
    (c.ModWriteBufSize maxAlloc n).2 = none := by
  have h1 : ¬ n ≤ 0 := by omega
  have h2 : ¬ (n < 0 ∨ maxAlloc < n) := by omega
  simp [connection.ModWriteBufSize, h, NewWriterSize, makeBytes, h1, h2]

/-- Each setter panics with `connectionErr`, leaving the connection as it
was, when the value it guards is positive. -/
theorem setter_panics_of_pos (maxAlloc : Int) (c : connection) (m : Int) :
    (0 < c.config.WriteBufSize →
      c.ModWriteBufSize maxAlloc m = (c, some Error.connectionErr)) ∧
    (0 < c.config.ReadTimeoutMS → c.ModReadTimeoutMS m = (c, some Error.connectionErr)) ∧
    (0 < c.config.WriteTimeoutMS → c.ModWriteTimeoutMS m = (c, some Error.connectionErr)) := by
  refine ⟨fun h => ?_, fun h => ?_, fun h => ?_⟩
  · simp [connection.ModWriteBufSize, h]
  · simp [connection.ModReadTimeoutMS, h]
  · simp [connection.ModWriteTimeoutMS, h]

/-- Beyond the limit of the allocator (here 2^48 bytes), `ModWriteBufSize`
stores the size, panics inside `bufio.NewWriterSize` and leaves the writer as
it was. -/
theorem ModWriteBufSize_beyond_limit :
    (connection.mk 0 (Reader.conn 0) (Writer.conn 0) (Config.mk 0 0 0 0)).ModWriteBufSize
        281474976710656 9223372036854775807 =
      (connection.mk 0 (Reader.conn 0) (Writer.conn 0) (Config.mk 0 9223372036854775807 0 0),
       some Error.makeslice) := by
  decide

/-- Claim C10 as stated fails for `n = 0` on the two timeout setters: on a
connection built from the zero `Config`, `ModReadTimeoutMS(0)` returns and
leaves no timeout set, and `ModReadTimeoutMS(5)` after it returns as well and
stores 5; the same for `ModWriteTimeoutMS`. -/
theorem timeout_setter_twice_zero_first :
    New 281474976710656 0 (Config.mk 0 0 0 0) =
      .ok (connection.mk 0 (Reader.conn 0) (Writer.conn 0) (Config.mk 0 0 0 0)) ∧
    (connection.mk 0 (Reader.conn 0) (Writer.conn 0) (Config.mk 0 0 0 0)).ModReadTimeoutMS 0 =
      (connection.mk 0 (Reader.conn 0) (Writer.conn 0) (Config.mk 0 0 0 0), none) ∧
    (connection.mk 0 (Reader.conn 0) (Writer.conn 0) (Config.mk 0 0 0 0)).ModReadTimeoutMS 5 =
      (connection.mk 0 (Reader.conn 0) (Writer.conn 0) (Config.mk 0 0 5 0), none) ∧
    (connection.mk 0 (Reader.conn 0) (Writer.conn 0) (Config.mk 0 0 0 0)).ModWriteTimeoutMS 0 =
      (connection.mk 0 (Reader.conn 0) (Writer.conn 0) (Config.mk 0 0 0 0), none) ∧
    (connection.mk 0 (Reader.conn 0) (Writer.conn 0) (Config.mk 0 0 0 0)).ModWriteTimeoutMS 5 =
      (connection.mk 0 (Reader.conn 0) (Writer.conn 0) (Config.mk 0 0 0 5), none) :=
  ⟨rfl, by decide, by decide, by decide, by decide⟩

/-- Claim C10, amended: on a connection `c0` that `New` returned, for each of
the three setters, every `n > 0` and every `m`: once the setter has been
called with `n`, calling it again with `m` panics with `connectionErr` and
changes nothing.  When the field of the `Config` for the setter is 0, the
first call stores `n`; the timeout setters then return, and `ModWriteBufSize`
returns when `n` is within the limit of the allocator. -/
theorem setter_twice_panics (maxAlloc : Int) (conn : Conn) (config : Config)
    (c0 : connection) (n m : Int) (hNew : New maxAlloc conn config = .ok c0) (hn : 0 < n) :
    ((c0.ModWriteBufSize maxAlloc n).1.ModWriteBufSize maxAlloc m =
        ((c0.ModWriteBufSize maxAlloc n).1, some Error.connectionErr) ∧
      (config.WriteBufSize = 0 →
        (c0.ModWriteBufSize maxAlloc n).1.config.WriteBufSize = n ∧
        (n ≤ maxAlloc → (c0.ModWriteBufSize maxAlloc n).2 = none))) ∧
    ((c0.ModReadTimeoutMS n).1.ModReadTimeoutMS m =
        ((c0.ModReadTimeoutMS n).1, some Error.connectionErr) ∧
      (config.ReadTimeoutMS = 0 →
        c0.ModReadTimeoutMS n =
          ({ c0 with config := { c0.config with ReadTimeoutMS := n } }, none))) ∧
    ((c0.ModWriteTimeoutMS n).1.ModWriteTimeoutMS m =
        ((c0.ModWriteTimeoutMS n).1, some Error.connectionErr) ∧
      (config.WriteTimeoutMS = 0 →
        c0.ModWriteTimeoutMS n =
          ({ c0 with config := { c0.config with WriteTimeoutMS := n } }, none))) := by
  have hc := New_config maxAlloc conn config c0 hNew
  refine ⟨⟨?_, fun h0 => ?_⟩, ⟨?_, fun h0 => ?_⟩, ⟨?_, fun h0 => ?_⟩⟩
  · by_cases hp : c0.config.WriteBufSize > 0
    · rw [((setter_panics_of_pos maxAlloc c0 n).1 hp)]
      exact (setter_panics_of_pos maxAlloc c0 m).1 hp
    · apply (setter_panics_of_pos maxAlloc _ m).1
      rw [ModWriteBufSize_stores maxAlloc c0 n hp]
      exact hn
  · have hp : ¬ c0.config.WriteBufSize > 0 := by rw [hc, h0]; decide
    exact ⟨ModWriteBufSize_stores maxAlloc c0 n hp,
      fun hmax => ModWriteBufSize_returns maxAlloc c0 n hp hn hmax⟩
  · by_cases hp : c0.config.ReadTimeoutMS > 0
    · rw [((setter_panics_of_pos maxAlloc c0 n).2.1 hp)]
      exact (setter_panics_of_pos maxAlloc c0 m).2.1 hp
    · apply (setter_panics_of_pos maxAlloc _ m).2.1
      simp [connection.ModReadTimeoutMS, hp, hn]
  · have hp : ¬ c0.config.ReadTimeoutMS > 0 := by rw [hc, h0]; decide
    simp [connection.ModReadTimeoutMS, hp]
  · by_cases hp : c0.config.WriteTimeoutMS > 0
    · rw [((setter_panics_of_pos maxAlloc c0 n).2.2 hp)]
      exact (setter_panics_of_pos maxAlloc c0 m).2.2 hp
    · apply (setter_panics_of_pos maxAlloc _ m).2.2
      simp [connection.ModWriteTimeoutMS, hp, hn]
  · have hp : ¬ c0.config.WriteTimeoutMS > 0 := by rw [hc, h0]; decide
    simp [connection.ModWriteTimeoutMS, hp]

theorem setter_twice_panics_witness :
    New 281474976710656 1 (Config.mk 0 0 0 0) =
      .ok (connection.mk 1 (Reader.conn 1) (Writer.conn 1) (Config.mk 0 0 0 0)) ∧
    (0 : Int) < 4096 ∧
    ((((connection.mk 1 (Reader.conn 1) (Writer.conn 1) (Config.mk 0 0 0 0)).ModWriteBufSize
          281474976710656 4096).1.ModWriteBufSize 281474976710656 8192 =
        (((connection.mk 1 (Reader.conn 1) (Writer.conn 1) (Config.mk 0 0 0 0)).ModWriteBufSize
          281474976710656 4096).1, some Error.connectionErr) ∧
      ((Config.mk 0 0 0 0).WriteBufSize = 0 →
        ((connection.mk 1 (Reader.conn 1) (Writer.conn 1) (Config.mk 0 0 0 0)).ModWriteBufSize
          281474976710656 4096).1.config.WriteBufSize = 4096 ∧
        ((4096 : Int) ≤ 281474976710656 →
          ((connection.mk 1 (Reader.conn 1) (Writer.conn 1) (Config.mk 0 0 0 0)).ModWriteBufSize
            281474976710656 4096).2 = none))) ∧
    (((connection.mk 1 (Reader.conn 1) (Writer.conn 1) (Config.mk 0 0 0 0)).ModReadTimeoutMS
          4096).1.ModReadTimeoutMS 8192 =
        (((connection.mk 1 (Reader.conn 1) (Writer.conn 1) (Config.mk 0 0 0 0)).ModReadTimeoutMS
          4096).1, some Error.connectionErr) ∧
      ((Config.mk 0 0 0 0).ReadTimeoutMS = 0 →
        (connection.mk 1 (Reader.conn 1) (Writer.conn 1) (Config.mk 0 0 0 0)).ModReadTimeoutMS
            4096 =
          (connection.mk 1 (Reader.conn 1) (Writer.conn 1) (Config.mk 0 0 4096 0), none))) ∧
    (((connection.mk 1 (Reader.conn 1) (Writer.conn 1) (Config.mk 0 0 0 0)).ModWriteTimeoutMS
          4096).1.ModWriteTimeoutMS 8192 =
        (((connection.mk 1 (Reader.conn 1) (Writer.conn 1) (Config.mk 0 0 0 0)).ModWriteTimeoutMS
          4096).1, some Error.connectionErr) ∧
      ((Config.mk 0 0 0 0).WriteTimeoutMS = 0 →
        (connection.mk 1 (Reader.conn 1) (Writer.conn 1) (Config.mk 0 0 0 0)).ModWriteTimeoutMS
            4096 =
          (connection.mk 1 (Reader.conn 1) (Writer.conn 1) (Config.mk 0 0 0 4096), none)))) :=
  ⟨rfl, by decide,
    setter_twice_panics 281474976710656 1 (Config.mk 0 0 0 0)
      (connection.mk 1 (Reader.conn 1) (Writer.conn 1) (Config.mk 0 0 0 0)) 4096 8192 rfl
      (by decide)⟩

end connection
